import Mathlib

/-!
Verification development for the nmapTraceroute repository.

Shallow embedding of the Python sources:
  * `src/models/hop_data.py`        — `HopData` and its `__post_init__` validation
  * `src/models/scan_result.py`     — `ScanResult`, `__post_init__`, `add_hop`, `get_statistics`
  * `src/utils/result_parser.py`    — `ResultParser` (regex-based hop parsing, gap filling)
  * `src/utils/validators.py`       — `is_valid_port`, `validate_port_list`
  * `src/core/traceroute_scanner.py`— `TracerouteScanner.scan_target`
  * `src/core/realtime_monitor.py`  — `MonitorStats`, `_update_stats`, `_monitor_loop`,
                                      `stop_monitoring`

Strings are processed as `List Char` (Python iterates strings by character);
Python `float` values carried by the code (RTTs, durations) are modelled as `ℚ`
(all arithmetic the claims exercise is exact), Python `int` as `ℤ`, and Python
exceptions as `Except String`.  Wall-clock readings (`time.time()`,
`datetime.now()`) are external inputs and appear as explicit parameters;
the `scan_time` timestamp field, which no claim mentions, is not modelled.
-/

/-! ### Python string primitives -/

/-- Python's whitespace predicate for `str.strip()` / regex `\s` (ASCII range). -/
def pyIsSpace (c : Char) : Bool :=
  c = ' ' ∨ c = '\t' ∨ c = '\n' ∨ c = '\r' ∨ c.toNat = 11 ∨ c.toNat = 12

/-- Python `str.strip(chars)`: drop characters of `strip` from both ends. -/
def pyStripSet (strip : List Char) (s : List Char) : List Char :=
  ((s.dropWhile (strip.contains ·)).reverse.dropWhile (strip.contains ·)).reverse

/-- Python `str.strip()` (whitespace strip). -/
def pyStrip (s : List Char) : List Char :=
  ((s.dropWhile pyIsSpace).reverse.dropWhile pyIsSpace).reverse

/-- Python `str.lower()` (ASCII). -/
def pyLower (s : List Char) : List Char := s.map Char.toLower

/-- Python `str.upper()` (ASCII). -/
def pyUpper (s : List Char) : List Char := s.map Char.toUpper

/-- Python `str.split(sep)` for a one-character separator: keeps empty pieces. -/
def splitOnChar (sep : Char) : List Char → List (List Char)
  | [] => [[]]
  | c :: rest =>
    match splitOnChar sep rest with
    | [] => [[]]
    | g :: gs => if c = sep then [] :: g :: gs else (c :: g) :: gs

/-- Does `pat` occur at the head of `s`? (`List.isPrefixOf` with Bool result.) -/
def headIs (pat s : List Char) : Bool :=
  match pat, s with
  | [], _ => true
  | _ :: _, [] => false
  | p :: ps, c :: cs => p = c ∧ headIs ps cs

/-- Python `pat in s` (substring containment). -/
def hasSubstr (s pat : List Char) : Bool :=
  match s with
  | [] => headIs pat []
  | _ :: rest => headIs pat s ∨ hasSubstr rest pat

/-- Index of the first occurrence of `pat` in `s`, if any. -/
def findSubstrIdx (pat : List Char) : List Char → Option Nat
  | [] => if headIs pat [] then some 0 else none
  | c :: rest =>
    if headIs pat (c :: rest) then some 0
    else (findSubstrIdx pat rest).map (· + 1)

/-- Python `str.split(sep, 1)`: split at the first occurrence of `sep` only.
Returns the two pieces; if `sep` is absent the second piece is `none`. -/
def pySplitOnce (sep : Char) : List Char → List Char × Option (List Char)
  | [] => ([], none)
  | c :: rest =>
    if c = sep then ([], some rest)
    else
      match pySplitOnce sep rest with
      | (l, r) => (c :: l, r)

/-- Python `str.replace(pat, rep)` (all occurrences, left to right, resuming
after each replacement).  Fueled to keep the recursion structural. -/
def replaceAllAux (pat rep : List Char) : Nat → List Char → List Char
  | 0, s => s
  | _ + 1, [] => []
  | fuel + 1, c :: rest =>
    if pat ≠ [] ∧ headIs pat (c :: rest) then
      rep ++ replaceAllAux pat rep fuel ((c :: rest).drop pat.length)
    else
      c :: replaceAllAux pat rep fuel rest

def replaceAll (pat rep s : List Char) : List Char :=
  replaceAllAux pat rep s.length s

/-! ### Python number parsing -/

/-- Numeric value of a (all-digit) character list. -/
def digitsToNat (ds : List Char) : Nat :=
  ds.foldl (fun a c => 10 * a + (c.toNat - 48)) 0

/-- Python `int(s)` on a string: optional surrounding whitespace, optional
sign, then a nonempty digit run.  (Underscore digit separators, which no
input of this repository uses, are not modelled.) -/
def pyInt (s : List Char) : Option Int :=
  let t := pyStrip s
  match t with
  | '+' :: ds => if ds ≠ [] ∧ ds.all Char.isDigit then some (digitsToNat ds) else none
  | '-' :: ds => if ds ≠ [] ∧ ds.all Char.isDigit then some (-(digitsToNat ds : Int)) else none
  | ds => if ds ≠ [] ∧ ds.all Char.isDigit then some (digitsToNat ds) else none

/-- Value of a decimal literal of the regex shape `\d+(\.\d+)?`, as used for
RTT values (`float(...)` in the source always succeeds on this shape). -/
def ratOfDecimal (cs : List Char) : ℚ :=
  match splitOnChar '.' cs with
  | [i] => (digitsToNat i : ℚ)
  | [i, f] => (digitsToNat i : ℚ) + (digitsToNat f : ℚ) / (10 ^ f.length : ℚ)
  | _ => 0

/-! ### Data model: `HopData` (src/models/hop_data.py) -/

/-- One traceroute hop (dataclass `HopData`). -/
structure HopData where
  hop_number : Int
  ip_address : String
  hostname : Option String
  rtt_ms : Option ℚ
  status : String
  deriving DecidableEq, Repr

/-- `HopData.__post_init__` (src/models/hop_data.py lines 18-24): constructing
a hop raises `ValueError` when `hop_number < 1` or the IP address is empty. -/
def hopDataMk (hop_number : Int) (ip_address : String) (hostname : Option String)
    (rtt_ms : Option ℚ) (status : String) : Except String HopData :=
  if hop_number < 1 then .error "hop number must be positive"
  else if ip_address = "" then .error "ip address must be nonempty"
  else .ok ⟨hop_number, ip_address, hostname, rtt_ms, status⟩

/-! ### Regex models for `ResultParser` (src/utils/result_parser.py)

Each of the parser's regular expressions is modelled by a character-level
matcher with Python `re` leftmost/greedy semantics.  The analyses below are
exact for the strings the parser feeds them (the hop-line functions receive
single lines produced by `split('\n')` and `strip()`, hence newline-free). -/

/-- Regex word character (`\w` / `\b` boundary test): `[A-Za-z0-9_]`. -/
def isWordChar (c : Char) : Bool := c.isAlphanum ∨ c = '_'

/-- `re.match(r'^\s*(\d+)\s+(.+)$', line)` (src/utils/result_parser.py line 167).
Returns the hop number (group 1 digits) and group 2.  Greedy `\s+` takes the
whole whitespace run; when nothing follows it, backtracking hands the last
whitespace character to `(.+)` (that character is then a one-char group 2).
`.` does not match `'\n'`; call sites pass stripped, newline-free lines. -/
def hopLineMatch (line : List Char) : Option (Nat × List Char) :=
  let s1 := line.dropWhile pyIsSpace
  let ds := s1.takeWhile Char.isDigit
  let r := s1.dropWhile Char.isDigit
  if ds = [] then none
  else
    let w := r.takeWhile pyIsSpace
    let t := r.drop w.length
    if w = [] then none
    else if t ≠ [] then
      if t.contains '\n' then none else some (digitsToNat ds, t)
    else if 2 ≤ w.length then
      match w.getLast? with
      | some c => if c = '\n' then none else some (digitsToNat ds, [c])
      | none => none
    else none

/-- One `\d{1,3}\.` group of the IPv4 regex: the digit run (which the greedy
quantifier must consume whole, since the following element is a literal dot)
must have length 1..3 and be followed by `'.'`; returns the remainder. -/
def ipGroupDot (s : List Char) : Option (List Char) :=
  let d := (s.takeWhile Char.isDigit).length
  if 1 ≤ d ∧ d ≤ 3 then
    match s.drop d with
    | '.' :: r => some r
    | _ => none
  else none

/-- Match of `(?:\d{1,3}\.){3}\d{1,3}\b` at the head of `s` (the leading `\b`
is checked by the caller, which tracks the preceding character).  Returns the
length of the matched text. -/
def matchIPv4At (s : List Char) : Option Nat := do
  let r1 ← ipGroupDot s
  let r2 ← ipGroupDot r1
  let r3 ← ipGroupDot r2
  let d := (r3.takeWhile Char.isDigit).length
  if 1 ≤ d ∧ d ≤ 3 then
    match r3.drop d with
    | [] => some (s.length - (r3.length - d))
    | c :: _ => if isWordChar c then none else some (s.length - (r3.length - d))
  else none

/-- First match of `\b(?:\d{1,3}\.){3}\d{1,3}\b` (leftmost scan; `prevW` says
whether the preceding character is a word character, for the `\b` test). -/
def findIPv4Aux : List Char → Bool → Option (List Char)
  | [], _ => none
  | c :: rest, prevW =>
    if ¬prevW then
      match matchIPv4At (c :: rest) with
      | some len => some ((c :: rest).take len)
      | none => findIPv4Aux rest (isWordChar c)
    else findIPv4Aux rest (isWordChar c)

def findIPv4 (s : List Char) : Option (List Char) := findIPv4Aux s false

/-- `re.sub` of the IPv4 pattern with `''` (all non-overlapping matches,
scanning resumes after each match; the last matched character is a digit, so
the boundary state after a match is "word"). -/
def subAllIPv4Aux : Nat → List Char → Bool → List Char
  | 0, s, _ => s
  | _ + 1, [], _ => []
  | fuel + 1, c :: rest, prevW =>
    if ¬prevW then
      match matchIPv4At (c :: rest) with
      | some len => subAllIPv4Aux fuel ((c :: rest).drop len) true
      | none => c :: subAllIPv4Aux fuel rest (isWordChar c)
    else c :: subAllIPv4Aux fuel rest (isWordChar c)

def subAllIPv4 (s : List Char) : List Char := subAllIPv4Aux s.length s false

/-- Match of `\d+(?:\.\d+)?\s*ms` at the head of `s`.  Returns
(group text, total match length).  Backtracking analysis: the greedy `\d+`
must consume its whole digit run (giving a digit back leaves a digit before
the next element, which can match none of `\.`, `\s`, `m`); likewise the
optional fraction, when a dot-and-digit follows, must be consumed whole. -/
def matchRTTAt (s : List Char) : Option (List Char × Nat) :=
  let d := s.takeWhile Char.isDigit
  if d = [] then none
  else
    let r := s.drop d.length
    match r with
    | '.' :: r2 =>
      let f := r2.takeWhile Char.isDigit
      if f = [] then none
      else
        let r3 := r2.drop f.length
        let ws := r3.takeWhile pyIsSpace
        if headIs "ms".data (r3.drop ws.length) then
          some (d ++ '.' :: f, d.length + 1 + f.length + ws.length + 2)
        else none
    | _ =>
      let ws := r.takeWhile pyIsSpace
      if headIs "ms".data (r.drop ws.length) then
        some (d, d.length + ws.length + 2)
      else none

/-- First match group of `(\d+(?:\.\d+)?)\s*ms` (leftmost scan, no boundary). -/
def findRTTGroup : List Char → Option (List Char)
  | [] => none
  | c :: rest =>
    match matchRTTAt (c :: rest) with
    | some (g, _) => some g
    | none => findRTTGroup rest

/-- `re.sub(r'\d+(?:\.\d+)?\s*ms', '', ...)`. -/
def subAllRTTAux : Nat → List Char → List Char
  | 0, s => s
  | _ + 1, [] => []
  | fuel + 1, c :: rest =>
    match matchRTTAt (c :: rest) with
    | some (_, len) => subAllRTTAux fuel ((c :: rest).drop len)
    | none => c :: subAllRTTAux fuel rest

def subAllRTT (s : List Char) : List Char := subAllRTTAux s.length s

/-- Hostname-class character: `[a-zA-Z0-9.-]`. -/
def isHostChar (c : Char) : Bool := c.isAlpha ∨ c.isDigit ∨ c = '.' ∨ c = '-'

/-- Backtracking choice for `([a-zA-Z0-9.-]+\.[a-zA-Z]{2,})` inside one
class-character run: the greedy first part picks the LAST dot that is
followed by at least two letters and preceded by at least one character.
Returns (index of that dot, length of the letter run after it). -/
def lastGoodDot : List Char → Nat → Option (Nat × Nat)
  | [], _ => none
  | '.' :: rest, idx =>
    (match lastGoodDot rest (idx + 1) with
     | some r => some r
     | none =>
       let m := (rest.takeWhile Char.isAlpha).length
       if 2 ≤ m ∧ 1 ≤ idx then some (idx, m) else none)
  | _ :: rest, idx => lastGoodDot rest (idx + 1)

/-- Match of the hostname pattern within a maximal class-character run. -/
def hostMatch (run : List Char) : Option (List Char) :=
  (lastGoodDot run 0).map fun lm =>
    run.take lm.1 ++ '.' :: ((run.drop (lm.1 + 1)).takeWhile Char.isAlpha)

/-- First match of `([a-zA-Z0-9.-]+\.[a-zA-Z]{2,})`: scan maximal runs of
class characters; a run admits a match iff it contains a suitable dot, and
the leftmost match then starts at the run's head. -/
def findHostnameAux : Nat → List Char → Option (List Char)
  | 0, _ => none
  | _ + 1, [] => none
  | fuel + 1, c :: rest =>
    if isHostChar c then
      let run := (c :: rest).takeWhile isHostChar
      match hostMatch run with
      | some h => some h
      | none => findHostnameAux fuel ((c :: rest).drop run.length)
    else findHostnameAux fuel rest

def findHostname (s : List Char) : Option (List Char) := findHostnameAux s.length s

/-! ### `ResultParser._extract_hop_details` and `_parse_hop_line` -/

/-- `ResultParser._extract_hop_details` (src/utils/result_parser.py lines
226-263): first IPv4 substring, first RTT number before a `ms` unit, and —
after deleting every IPv4 and RTT match and stripping `' ()'` — the first
domain-like token. -/
def extract_hop_details (hop_info : List Char) :
    Option (List Char) × Option ℚ × Option (List Char) :=
  let ip := findIPv4 hop_info
  let rtt := (findRTTGroup hop_info).map ratOfDecimal
  let cleaned := subAllRTT (subAllIPv4 hop_info)
  let cleaned := pyStripSet [' ', '(', ')'] cleaned
  let hostname := findHostname cleaned
  (ip, rtt, hostname)

/-- `ResultParser._parse_hop_line` (src/utils/result_parser.py lines 155-224).
The function's surrounding `try`/`except` turns any `ValueError` from a
`HopData` construction into `None`; `Except.toOption` models that. -/
def parse_hop_line (line : List Char) : Option HopData :=
  match hopLineMatch line with
  | none => none
  | some (hopNumberNat, g2) =>
    let hop_number : Int := hopNumberNat
    let hop_info := pyStrip g2
    (if hop_info = "*".data ∨ hasSubstr (pyLower hop_info) "timeout".data then
      hopDataMk hop_number "*" none none "timeout"
    else if headIs "...".data hop_info then
      match pyInt (pyStrip (replaceAll "...".data [] hop_info)) with
      | some end_hop =>
        hopDataMk hop_number "*"
          (some ⟨"No response (hops ".data ++ (toString hop_number).data ++
                 "-".data ++ (toString end_hop).data ++ ")".data⟩)
          none "timeout"
      | none => hopDataMk hop_number "*" (some "No response") none "timeout"
    else
      match extract_hop_details hop_info with
      | (none, _, _) => hopDataMk hop_number "*" (some "No response") none "timeout"
      | (some ip, rtt, hostname) =>
        hopDataMk hop_number ⟨ip⟩ (hostname.map (⟨·⟩)) rtt
          (if rtt.isSome then "success" else "unknown")).toOption

/-! ### Gap filling and the two parse paths -/

/-- The hop-number-to-hop dict `{hop.hop_number: hop for hop in hops}`
(src/utils/result_parser.py line 138): later entries overwrite earlier ones. -/
def hopMap (hops : List HopData) : Int → Option HopData :=
  hops.foldl (fun m h => fun n => if n = h.hop_number then some h else m n)
    (fun _ => none)

/-- `max(hop.hop_number for hop in hops)` (line 135).  The `0` seed is inert:
every call site guards `hops` nonempty and parsed hop numbers are ≥ 1. -/
def maxHopNumber (hops : List HopData) : Int :=
  hops.foldl (fun a h => max a h.hop_number) 0

/-- `range(1, max_hop + 1)` as a list of `Int`. -/
def intRange1 (maxHop : Int) : List Int :=
  (List.range' 1 maxHop.toNat).map Int.ofNat

/-- The synthesized placeholder for a missing hop number (lines 146-151). -/
def missingHop (i : Int) : Except String HopData :=
  hopDataMk i "*" (some "No response") none "timeout"

/-- `ResultParser._fill_missing_hops` (lines 120-153), with the `HopData`
constructions kept in `Except` (a `ValueError` there would propagate to the
caller's `try`).  -/
def fill_missing_hopsE (hops : List HopData) : Except String (List HopData) :=
  if hops = [] then pure hops
  else
    (intRange1 (maxHopNumber hops)).mapM fun i =>
      match hopMap hops i with
      | some h => pure h
      | none => missingHop i

/-- The value `fill_missing_hopsE` delivers (it never errors: the synthesized
hops have number ≥ 1 and the nonempty IP `"*"`; proved below). -/
def fill_missing_hops (hops : List HopData) : List HopData :=
  if hops = [] then hops
  else
    (intRange1 (maxHopNumber hops)).map fun i =>
      match hopMap hops i with
      | some h => h
      | none => ⟨i, "*", some "No response", none, "timeout"⟩

/-- The hop lines collected by `ResultParser._parse_traceroute_hops`
(lines 101-111): strip the section text, split into lines, skip empties and
`TRACEROUTE` headers, keep the lines `_parse_hop_line` accepts. -/
def sectionHops (traceroute_text : List Char) : List HopData :=
  (splitOnChar '\n' (pyStrip traceroute_text)).filterMap fun l =>
    let line := pyStrip l
    if line = [] ∨ headIs "TRACEROUTE".data line then none
    else parse_hop_line line

/-- `ResultParser._parse_traceroute_hops` (lines 91-118). -/
def parse_traceroute_hopsE (traceroute_text : List Char) :
    Except String (List HopData) :=
  let hops := sectionHops traceroute_text
  if hops ≠ [] then fill_missing_hopsE hops else pure hops

/-- The lazy group of `TRACEROUTE.*?\n(.*?)(?=\n\n|\nNmap|\Z)`: shortest text
until a blank line, an `\nNmap` header, or the end of input. -/
def lazyUntilStop : List Char → List Char
  | [] => []
  | c :: rest =>
    if headIs "\n\n".data (c :: rest) ∨ headIs "\nNmap".data (c :: rest) then []
    else c :: lazyUntilStop rest

/-- Index of the first `'\n'`. -/
def findNewlineIdx : List Char → Option Nat
  | [] => none
  | c :: rest => if c = '\n' then some 0 else (findNewlineIdx rest).map (· + 1)

/-- `self.traceroute_pattern.search(output)` for
`re.compile(r'TRACEROUTE.*?\n(.*?)(?=\n\n|\nNmap|\Z)', re.DOTALL | re.MULTILINE)`
(lines 17-20), returning group 1: first `TRACEROUTE` occurrence, lazy `.*?\n`
reaches the first newline after it, then the lazy group runs to the first
stop marker.  If no newline follows any `TRACEROUTE` occurrence the search
fails (newlines after later occurrences are a subset of those after the
first). -/
def tracerouteSearch (s : List Char) : Option (List Char) := do
  let i ← findSubstrIdx "TRACEROUTE".data s
  let after := s.drop (i + 10)
  let j ← findNewlineIdx after
  pure (lazyUntilStop (after.drop (j + 1)))

/-- Loop state and body of `ResultParser._parse_alternative_format`
(lines 265-303): `in_traceroute` latches on a `TRACEROUTE`/`HOP RTT` marker
line; a later `Nmap`-prefixed line breaks, blank lines are skipped, `#` lines
are ignored, and the accepted hop lines are parsed.  No gap filling. -/
def altFormatLoop : List (List Char) → Bool → List HopData → List HopData
  | [], _, acc => acc
  | l :: ls, in_traceroute, acc =>
    let line := pyStrip l
    if hasSubstr (pyUpper line) "TRACEROUTE".data ∨
        hasSubstr (pyUpper line) "HOP RTT".data then
      altFormatLoop ls true acc
    else if in_traceroute ∧ (headIs "Nmap".data line ∨ line = []) then
      if line = [] then altFormatLoop ls in_traceroute acc
      else acc
    else if in_traceroute ∧ line ≠ [] ∧ ¬headIs "#".data line then
      match parse_hop_line line with
      | some hop => altFormatLoop ls in_traceroute (acc ++ [hop])
      | none => altFormatLoop ls in_traceroute acc
    else altFormatLoop ls in_traceroute acc

def parse_alternative_format (output : List Char) : List HopData :=
  altFormatLoop (splitOnChar '\n' output) false []

/-! ### Data model: `ScanResult` (src/models/scan_result.py) -/

/-- One completed scan (dataclass `ScanResult`).  The `scan_time` timestamp
(ambient `datetime.now()`) is not modelled; no claim mentions it. -/
structure ScanResult where
  target : String
  port : Int
  protocol : String
  hops : List HopData
  target_reached : Bool
  total_hops : Int
  scan_duration : Option ℚ
  deriving DecidableEq, Repr

/-- Dataclass construction of `ScanResult` with field defaults followed by
`__post_init__` (src/models/scan_result.py lines 22-33): `total_hops` is set
to the hop count, and `target_reached` is computed from the LAST hop (IP
equals the target, or status is `"success"`) only when the hop list is
nonempty — otherwise it keeps its `False` default. -/
def mkScanResult (target : String) (port : Int) (protocol : String)
    (hops : List HopData) : ScanResult :=
  { target := target, port := port, protocol := protocol, hops := hops,
    target_reached :=
      match hops.getLast? with
      | some last_hop => last_hop.ip_address = target ∨ last_hop.status = "success"
      | none => false,
    total_hops := hops.length,
    scan_duration := none }

/-- `ScanResult.add_hop` (lines 35-38): appends the hop and updates
`total_hops` — and nothing else (`target_reached` is NOT recomputed). -/
def add_hop (r : ScanResult) (hop : HopData) : ScanResult :=
  { r with hops := r.hops ++ [hop], total_hops := (r.hops ++ [hop]).length }

/-- The `avg_rtt` entry of `ScanResult.get_statistics` (lines 40-64): mean of
the hops' non-null RTTs, or null when there are none. -/
def ScanResult.avgRtt (r : ScanResult) : Option ℚ :=
  let valid_rtts := r.hops.filterMap (fun h => h.rtt_ms)
  if valid_rtts = [] then none
  else some (valid_rtts.sum / (valid_rtts.length : ℚ))

/-! ### `ResultParser.parse_nmap_output` (src/utils/result_parser.py 39-89) -/

/-- The body of the `try` block at lines 66-88, producing the hops to add:
section path via the `TRACEROUTE` regex, else the line-by-line fallback.
The only possible exception inside is a `ValueError` from a `HopData`
construction in `_fill_missing_hops`; it is carried in `Except`. -/
def parse_nmap_output_body (output : List Char) : Except String (List HopData) :=
  match tracerouteSearch output with
  | none => pure (parse_alternative_format output)
  | some traceroute_text => parse_traceroute_hopsE traceroute_text

/-- `ResultParser.parse_nmap_output` with the `try`/`except` made explicit:
any exception from the body is caught and the `ScanResult` built so far is
returned — no hop was added yet when the body can fail, so the caught-path
result is the freshly constructed empty one.  Always `ok`. -/
def parse_nmap_outputE (output : String) (target : String) (port : Int)
    (protocol : String) : Except String ScanResult :=
  let result := mkScanResult target port protocol []
  match parse_nmap_output_body output.data with
  | .ok hops => .ok (hops.foldl add_hop result)
  | .error _ => .ok result

/-- `ResultParser.parse_nmap_output` as the total function the caller sees. -/
def parse_nmap_output (output : String) (target : String) (port : Int)
    (protocol : String) : ScanResult :=
  match parse_nmap_outputE output target port protocol with
  | .ok r => r
  | .error _ => mkScanResult target port protocol []

/-! ### `TracerouteScanner.scan_target` (src/core/traceroute_scanner.py 48-131) -/

/-- The `ports: Union[int, List[int]]` argument. -/
inductive PortsArg where
  | single (p : Int)
  | several (ps : List Int)
  deriving DecidableEq, Repr

/-- Lines 66-71: the port list and the primary port (first of the list, or
80 for an empty list). -/
def portsOf : PortsArg → List Int × Int
  | .single p => ([p], p)
  | .several ps => (ps, ps.headD 80)

/-- `protocol or self.protocol`: an absent or empty override falls back to
the instance default (Python `or` treats `""` as false). -/
def effectiveProtocol (override : Option String) (dflt : String) : String :=
  match override with
  | none => dflt
  | some p => if p = "" then dflt else p

/-- `TracerouteScanner.scan_target`.  The nmap invoker is external: command
building and execution are oracle parameters that may fail (`Except`), and
`elapsed` is the `time.time() - start_time` reading at the point where the
duration is stamped.  Any exception from the `try` block is caught (lines
122-131) and an empty `ScanResult` carrying the request and the duration is
returned. -/
def scan_target (build_command : Except String (List String))
    (execute_scan : List String → Except String (String × String × Int))
    (dflt_protocol : String) (target : String) (ports : PortsArg)
    (protocol : Option String) (elapsed : ℚ) : ScanResult :=
  let primary_port := (portsOf ports).2
  let scan_protocol := effectiveProtocol protocol dflt_protocol
  match build_command with
  | .error _ =>
    { mkScanResult target primary_port scan_protocol [] with
      scan_duration := some elapsed }
  | .ok command =>
    match execute_scan command with
    | .error _ =>
      { mkScanResult target primary_port scan_protocol [] with
        scan_duration := some elapsed }
    | .ok (stdout, _, _) =>
      let result := parse_nmap_output ⟨stdout.data⟩ target primary_port
        scan_protocol
      { result with scan_duration := some elapsed }

/-! ### Monitor statistics (src/core/realtime_monitor.py) -/

/-- Dataclass `MonitorStats` (lines 27-41).  `min_response_time` starts at
`float('inf')`, modelled as `none`; `last_scan_time` (wall clock) is not
modelled. -/
structure MonitorStats where
  total_scans : Int
  successful_scans : Int
  failed_scans : Int
  avg_response_time : ℚ
  min_response_time : Option ℚ
  max_response_time : ℚ
  deriving DecidableEq, Repr

def initMonitorStats : MonitorStats :=
  { total_scans := 0, successful_scans := 0, failed_scans := 0,
    avg_response_time := 0, min_response_time := none, max_response_time := 0 }

/-- `RealtimeMonitor._update_stats` (lines 180-200).  `scan_duration` is a
parameter of the Python method but is unused by its body.  The success test
and the sample come from `result.get_statistics()`: the (stale) field
`target_reached` and the mean hop RTT.  The running mean is updated from the
previous mean, the new sample and the successful count only. -/
def update_stats (stats : MonitorStats) (result : ScanResult) : MonitorStats :=
  let stats := { stats with total_scans := stats.total_scans + 1 }
  if result.target_reached then
    let stats := { stats with successful_scans := stats.successful_scans + 1 }
    match result.avgRtt with
    | some avg_rtt =>
      let total_successful := stats.successful_scans
      let current_avg := stats.avg_response_time
      { stats with
        min_response_time :=
          some (match stats.min_response_time with
                | none => avg_rtt
                | some m => min m avg_rtt),
        max_response_time := max stats.max_response_time avg_rtt,
        avg_response_time :=
          ((current_avg * ((total_successful : ℚ) - 1)) + avg_rtt) /
            (total_successful : ℚ) }
    | none => stats
  else { stats with failed_scans := stats.failed_scans + 1 }

/-! ### Monitor loop and stop (src/core/realtime_monitor.py 125-178)

The monitor's mutable state and the body of one `while` iteration of
`_monitor_loop`, as a step function.  External effects are reported as an
action trace; the scan result, its duration and a callback failure are the
iteration's inputs (the scanner itself never raises, and the per-scan
callback is the only raising operation inside the `try`). -/

structure MonitorState where
  is_running : Bool
  stopping : Bool
  scanning_in_progress : Bool
  stats : MonitorStats
  history : List ScanResult
  max_history : Nat
  current_result : Option ScanResult
  interval : ℚ
  deriving DecidableEq, Repr

/-- Observable actions of the monitor. -/
inductive MAction where
  | startScan
  | fireCallback
  | sleepFor (seconds : ℚ)
  | warnOverlapSkip
  | warnScheduleBehind
  | exitLoop
  | joinThread (timeout : ℚ)
  deriving DecidableEq, Repr

/-- `deque(maxlen=max_history)` append: evict oldest entries beyond the cap. -/
def historyAppend (history : List ScanResult) (max_history : Nat)
    (r : ScanResult) : List ScanResult :=
  let h := history ++ [r]
  if max_history < h.length then h.drop (h.length - max_history) else h

/-- Inputs of one `_monitor_loop` iteration. -/
structure IterInput where
  result : ScanResult
  scan_duration : ℚ
  callback_set : Bool
  callback_raises : Bool
  deriving DecidableEq, Repr

/-- One iteration of `RealtimeMonitor._monitor_loop` (lines 135-178):
exit when no longer running or stopping; skip the tick and sleep a full
interval when a scan is still in flight; otherwise set the in-progress flag,
scan, update stats, append history, fire the callback, clear the flag, and
sleep `max(0, interval - scan_duration)` (warning instead of sleeping when
the scan overran).  An exception (from the callback) is caught: the failed
counter is bumped, the flag cleared, and the loop sleeps a full interval. -/
def monitor_loop_iter (st : MonitorState) (inp : IterInput) :
    MonitorState × List MAction :=
  if ¬(st.is_running ∧ ¬st.stopping) then (st, [.exitLoop])
  else if st.scanning_in_progress then
    (st, [.warnOverlapSkip, .sleepFor st.interval])
  else
    let stats' := update_stats st.stats inp.result
    let history' := historyAppend st.history st.max_history inp.result
    if inp.callback_set ∧ inp.callback_raises then
      ({ st with stats := { stats' with failed_scans := stats'.failed_scans + 1 },
                 history := history', current_result := some inp.result,
                 scanning_in_progress := false },
       [.startScan, .fireCallback, .sleepFor st.interval])
    else
      let actual_wait := max 0 (st.interval - inp.scan_duration)
      ({ st with stats := stats', history := history',
                 current_result := some inp.result,
                 scanning_in_progress := false },
       [.startScan] ++ (if inp.callback_set then [.fireCallback] else []) ++
         (if 0 < actual_wait then [.sleepFor actual_wait]
          else [.warnScheduleBehind]))

/-- `RealtimeMonitor.stop_monitoring` (lines 125-133): guarded by the
`stopping` flag; the first call sets `stopping`, clears `is_running` and
joins the monitor thread with a 5 second bound; any later call does
nothing. -/
def stop_monitoring (st : MonitorState) : MonitorState × List MAction :=
  if ¬st.stopping then
    ({ st with stopping := true, is_running := false }, [.joinThread 5])
  else (st, [])

/-! ### Validators (src/utils/validators.py) -/

/-- `is_valid_port` (lines 65-79) on an integer: in range 1..65535. -/
def is_valid_port (port : Int) : Bool := 1 ≤ port ∧ port ≤ 65535

/-- `range(start_port, end_port + 1)` as a list of `Int`. -/
def intRangeIncl (a b : Int) : List Int :=
  (List.range' 0 (b + 1 - a).toNat).map fun k => a + (k : Int)

/-- Ascending duplicate-free insertion, for `sorted(list(set(...)))`. -/
def insertSorted (x : Int) : List Int → List Int
  | [] => [x]
  | y :: ys =>
    if x < y then x :: y :: ys
    else if x = y then y :: ys
    else y :: insertSorted x ys

/-- `sorted(list(set(l)))` (line 139). -/
def sortedDedup (l : List Int) : List Int := l.foldr insertSorted []

/-- The body of `validate_port_list`'s per-part loop (lines 106-137) on one
comma-separated piece.  Range pieces: split once at `'-'`, parse both ends
(an `int()` failure is caught and re-raised as a format error), check both
ports valid and the range ascending.  Single pieces: parse and check, any
`ValueError` (parse or invalid port) re-raised as a format error. -/
def processPortPart (acc : List Int) (port_part : List Char) :
    Except String (List Int) :=
  let port_part := pyStrip port_part
  if port_part.contains '-' then
    match pySplitOnce '-' port_part with
    | (start, some «end») =>
      match pyInt (pyStrip start), pyInt (pyStrip «end») with
      | some start_port, some end_port =>
        if ¬(is_valid_port start_port) ∨ ¬(is_valid_port end_port) then
          .error "range contains invalid port"
        else if start_port > end_port then .error "invalid port range"
        else .ok (acc ++ intRangeIncl start_port end_port)
      | _, _ => .error "port range format error"
    | (_, none) => .error "port range format error"
  else
    match pyInt port_part with
    | some port =>
      if is_valid_port port then .ok (acc ++ [port])
      else .error "port format error"
    | none => .error "port format error"

/-- `validate_port_list` on a string argument (lines 102-139): process the
comma-separated pieces in order, then deduplicate and sort. -/
def validate_port_list (ports : String) : Except String (List Int) := do
  let result ← (splitOnChar ',' ports.data).foldlM processPortPart []
  pure (sortedDedup result)

/-- `validate_port_list` on a list argument (lines 95-100): every port must
be valid; the list is returned unchanged. -/
def validate_port_list_ofList (ports : List Int) : Except String (List Int) :=
  if ports.all is_valid_port then .ok ports else .error "invalid port"

/-! ### Test fixture for the running-mean claim

A successful scan carrying one `success` hop with RTT `x`: its (stale-free,
constructor-computed) `target_reached` is true and its `get_statistics`
average RTT is `x`, so `_update_stats` treats `x` as the new sample. -/

def successScanSample (x : ℚ) : ScanResult :=
  mkScanResult "198.51.100.1" 80 "tcp"
    [⟨1, "198.51.100.1", none, some x, "success"⟩]

/-- `_update_stats` folded over a run of successful scans with samples `xs`,
starting from the reset statistics. -/
def monitorFoldStats (xs : List ℚ) : MonitorStats :=
  xs.foldl (fun stats x => update_stats stats (successScanSample x))
    initMonitorStats

/-! ### Helper lemmas -/

/-- Adding hops one by one (`result.add_hop(hop)` in a loop) appends them. -/
lemma hops_foldl_add_hop (hops : List HopData) (r : ScanResult) :
    (hops.foldl add_hop r).hops = r.hops ++ hops := by
  induction hops generalizing r with
  | nil => simp
  | cons h t ih => simp [List.foldl_cons, ih, add_hop]

/-- `List.mapM` into `Except` succeeds pointwise. -/
lemma mapM_ok_of_forall {α β : Type} (f : α → Except String β) (g : α → β)
    (l : List α) (h : ∀ a ∈ l, f a = .ok (g a)) :
    l.mapM f = .ok (l.map g) := by
  induction l with
  | nil => rfl
  | cons a t ih =>
    rw [List.mapM_cons, h a (by simp)]
    rw [ih (fun b hb => h b (by simp [hb]))]
    rfl

/-- Members of `intRange1 m` are the integers `1..m`. -/
lemma mem_intRange1 {m : Int} {i : Int} (h : i ∈ intRange1 m) : 1 ≤ i ∧ i ≤ m := by
  unfold intRange1 at h
  rcases List.mem_map.mp h with ⟨k, hk, rfl⟩
  rcases List.mem_range'_1.mp hk with ⟨h1, h2⟩
  simp only [Int.ofNat_eq_natCast]
  omega

/-- The number-to-hop dict is the last hop of each number (dict-comprehension
entries overwrite left to right). -/
lemma hopMap_eq_filter_getLast (hops : List HopData) (i : Int) :
    hopMap hops i = (hops.filter (fun h => h.hop_number = i)).getLast? := by
  induction hops using List.reverseRecOn with
  | nil => rfl
  | append_singleton l h ih =>
    have hfold : hopMap (l ++ [h]) i =
        if i = h.hop_number then some h else hopMap l i := by
      unfold hopMap
      rw [List.foldl_append]
      rfl
    rw [hfold, List.filter_append]
    by_cases hc : h.hop_number = i
    · rw [if_pos hc.symm]
      have hf : List.filter (fun h' => decide (h'.hop_number = i)) [h] = [h] := by
        simp [hc]
      rw [hf, List.getLast?_concat]
    · rw [if_neg (fun he => hc he.symm)]
      have hf : List.filter (fun h' => decide (h'.hop_number = i)) [h] = [] := by
        simp [hc]
      rw [hf, List.append_nil, ih]

/-- A dict hit is a member of the hop list and carries the looked-up number. -/
lemma hopMap_mem_and_number {hops : List HopData} {i : Int} {h : HopData}
    (hm : hopMap hops i = some h) : h ∈ hops ∧ h.hop_number = i := by
  rw [hopMap_eq_filter_getLast] at hm
  have hmem : h ∈ hops.filter (fun h' => h'.hop_number = i) :=
    List.mem_of_mem_getLast? hm
  have := List.mem_filter.mp hmem
  exact ⟨this.1, by simpa using this.2⟩

/-- The filled list `_fill_missing_hops` computes, elementwise. -/
lemma fill_missing_hopsE_eq (hops : List HopData) :
    fill_missing_hopsE hops = .ok (fill_missing_hops hops) := by
  unfold fill_missing_hopsE fill_missing_hops
  by_cases he : hops = []
  · subst he
    rfl
  · rw [if_neg he, if_neg he]
    apply mapM_ok_of_forall
    intro i hi
    have h1 : 1 ≤ i := (mem_intRange1 hi).1
    cases hm : hopMap hops i with
    | some h => rfl
    | none =>
      unfold missingHop hopDataMk
      rw [if_neg (by omega)]
      rfl

/-- A successful `HopData` construction satisfies the `__post_init__` checks. -/
lemma hopDataMk_ok_inv {n : Int} {ip : String} {ho : Option String}
    {r : Option ℚ} {st : String} {h : HopData}
    (hk : (hopDataMk n ip ho r st).toOption = some h) :
    1 ≤ h.hop_number ∧ h.ip_address ≠ "" := by
  unfold hopDataMk at hk
  by_cases h1 : n < 1
  · rw [if_pos h1] at hk
    simp [Except.toOption] at hk
  · rw [if_neg h1] at hk
    by_cases h2 : ip = ""
    · rw [if_pos h2] at hk
      simp [Except.toOption] at hk
    · rw [if_neg h2] at hk
      simp [Except.toOption] at hk
      subst hk
      exact ⟨show (1:Int) ≤ n by omega, show ip ≠ "" from h2⟩

/-- Gap filling produces exactly the hop numbers `1..max`. -/
lemma fill_missing_hops_numbers (hops : List HopData) (hne : hops ≠ []) :
    (fill_missing_hops hops).map (fun h => h.hop_number) =
      intRange1 (maxHopNumber hops) := by
  unfold fill_missing_hops
  rw [if_neg hne, List.map_map]
  have hpt : ∀ i ∈ intRange1 (maxHopNumber hops),
      ((fun h => h.hop_number) ∘ fun i =>
        (match hopMap hops i with
         | some h => h
         | none => ⟨i, "*", some "No response", none, "timeout"⟩ : HopData)) i = i := by
    intro i _
    show (match hopMap hops i with
         | some h => h
         | none => (⟨i, "*", some "No response", none, "timeout"⟩ : HopData)).hop_number = i
    cases hmp : hopMap hops i with
    | some h => exact (hopMap_mem_and_number hmp).2
    | none => rfl
  calc (intRange1 (maxHopNumber hops)).map _
      = (intRange1 (maxHopNumber hops)).map id := List.map_congr_left hpt
    _ = intRange1 (maxHopNumber hops) := List.map_id _

/-- On the traceroute-section path with at least one parsed hop, the parse
result's hops are the gap-filled section hops. -/
lemma parse_nmap_output_section (output target : String) (port : Int)
    (protocol : String) (txt : List Char)
    (hsearch : tracerouteSearch output.data = some txt)
    (hne : sectionHops txt ≠ []) :
    (parse_nmap_output output target port protocol).hops =
      fill_missing_hops (sectionHops txt) := by
  have hbody : parse_nmap_output_body output.data =
      .ok (fill_missing_hops (sectionHops txt)) := by
    unfold parse_nmap_output_body
    rw [hsearch]
    show parse_traceroute_hopsE txt = _
    simp only [parse_traceroute_hopsE]
    rw [if_pos hne, fill_missing_hopsE_eq]
  unfold parse_nmap_output parse_nmap_outputE
  rw [hbody]
  simp [hops_foldl_add_hop, mkScanResult]

/-! ### Claim C1 -/

/-- C1 counterexample: on the line-by-line fallback path (no `TRACEROUTE`
section header is found; the `HOP RTT` marker line starts the fallback
section), `_parse_alternative_format` performs NO gap filling: parsed hops
1 and 3 come back as `[1, 3]`, not as the contiguous `[1, 2, 3]` the claim
requires. -/
theorem C1_fallback_counterexample :
    ((parse_nmap_output "HOP RTT\n1   *\n3   *" "198.51.100.7" 80 "tcp").hops.map
      (fun h => h.hop_number)) = [1, 3] ∧ ([1, 3] : List Int) ≠ [1, 2, 3] := by
  constructor
  · rfl
  · decide

/-- C1 (amended): on the traceroute-section parse path, whenever at least one
hop line parses, the hop numbers of the returned `ScanResult` are exactly
`1..max` (ascending, contiguous, no gaps, no duplicates), and every number
with no parsed entry appears as the synthesized timeout hop with IP `"*"` and
hostname `"No response"`.  (The fallback path returns its parsed hops without
gap filling.) -/
theorem C1_section_gap_fill (output target : String) (port : Int)
    (protocol : String) (txt : List Char)
    (hsearch : tracerouteSearch output.data = some txt)
    (hne : sectionHops txt ≠ []) :
    ((parse_nmap_output output target port protocol).hops.map
        (fun h => h.hop_number) =
      intRange1 (maxHopNumber (sectionHops txt))) ∧
    (∀ i, i ∈ intRange1 (maxHopNumber (sectionHops txt)) →
      hopMap (sectionHops txt) i = none →
      (⟨i, "*", some "No response", none, "timeout"⟩ : HopData) ∈
        (parse_nmap_output output target port protocol).hops) := by
  rw [parse_nmap_output_section output target port protocol txt hsearch hne]
  refine ⟨fill_missing_hops_numbers _ hne, ?_⟩
  intro i hi hnone
  unfold fill_missing_hops
  rw [if_neg hne]
  refine List.mem_map.mpr ⟨i, hi, ?_⟩
  rw [hnone]

/-- Witness for `C1_section_gap_fill` at a concrete nmap output whose
traceroute section contains hops 1 and 3: the result's numbers are
`[1, 2, 3]`. -/
theorem C1_section_gap_fill_witness :
    tracerouteSearch ("TRACEROUTE \n1   *\n3   *" : String).data =
        some ("1   *\n3   *" : String).data ∧
    sectionHops ("1   *\n3   *" : String).data ≠ [] ∧
    ((parse_nmap_output "TRACEROUTE \n1   *\n3   *" "198.51.100.7" 80
        "tcp").hops.map (fun h => h.hop_number) =
      intRange1 (maxHopNumber (sectionHops ("1   *\n3   *" : String).data))) :=
  ⟨by decide, by decide,
    (C1_section_gap_fill "TRACEROUTE \n1   *\n3   *" "198.51.100.7" 80 "tcp"
      ("1   *\n3   *" : String).data (by decide) (by decide)).1⟩

/-! ### Claim C2 -/

/-- C2, evaluated on the code: `ScanResult.add_hop` appends the hop and
updates `total_hops` but does NOT recompute `target_reached` — after
appending a `success` hop whose IP equals the target, the field is still
`false`, whereas constructing a `ScanResult` directly with the same hop list
(running `__post_init__` on it) yields `true`.  The claim's
"recomputed ... on every append" fails on `add_hop`. -/
theorem C2_add_hop_keeps_stale_target_reached :
    (add_hop (mkScanResult "203.0.113.9" 80 "tcp" [])
        ⟨1, "203.0.113.9", none, some 10, "success"⟩).target_reached = false ∧
    (add_hop (mkScanResult "203.0.113.9" 80 "tcp" [])
        ⟨1, "203.0.113.9", none, some 10, "success"⟩).hops.getLast? =
      some ⟨1, "203.0.113.9", none, some 10, "success"⟩ ∧
    (mkScanResult "203.0.113.9" 80 "tcp"
        [⟨1, "203.0.113.9", none, some 10, "success"⟩]).target_reached = true := by
  refine ⟨rfl, rfl, by decide⟩

/-! ### Claim C10 -/

/-- The fold computing `max(...)` only grows its accumulator. -/
lemma foldl_max_init_le (l : List HopData) :
    ∀ a : Int, a ≤ l.foldl (fun a h => max a h.hop_number) a := by
  induction l with
  | nil => intro a; simp
  | cons x t ih =>
    intro a
    calc a ≤ max a x.hop_number := le_max_left _ _
      _ ≤ _ := ih _

/-- Every hop number is bounded by `maxHopNumber`. -/
lemma le_maxHopNumber {hops : List HopData} {h : HopData} (hm : h ∈ hops) :
    h.hop_number ≤ maxHopNumber hops := by
  unfold maxHopNumber
  generalize (0 : Int) = a
  induction hops generalizing a with
  | nil => cases hm
  | cons x t ih =>
    rcases List.mem_cons.mp hm with rfl | hmt
    · calc h.hop_number ≤ max a h.hop_number := le_max_right _ _
        _ ≤ _ := foldl_max_init_le _ _
    · exact ih hmt _

/-- `1..max` membership, converse direction. -/
lemma intRange1_mem {m i : Int} (h1 : 1 ≤ i) (h2 : i ≤ m) : i ∈ intRange1 m := by
  unfold intRange1
  refine List.mem_map.mpr ⟨i.toNat, List.mem_range'_1.mpr ⟨by omega, by omega⟩, ?_⟩
  simp only [Int.ofNat_eq_natCast]
  omega

/-- `1..max` has no duplicates. -/
lemma intRange1_nodup (m : Int) : (intRange1 m).Nodup := by
  unfold intRange1
  exact (List.nodup_range' _ _).map (fun _ _ hab => Int.ofNat.inj hab)

/-- Filtering a duplicate-free list for one of its members keeps exactly it. -/
lemma nodup_filter_eq {l : List Int} (hnd : l.Nodup) {i : Int} (hi : i ∈ l) :
    l.filter (fun j => j = i) = [i] := by
  induction l with
  | nil => cases hi
  | cons a t ih =>
    rw [List.nodup_cons] at hnd
    rw [List.filter_cons]
    by_cases ha : a = i
    · subst ha
      rw [if_pos (by simp)]
      have hnil : t.filter (fun j => j = a) = [] := by
        refine List.filter_eq_nil_iff.mpr ?_
        intro b hb
        simp only [decide_eq_true_eq]
        intro he
        exact hnd.1 (he ▸ hb)
      rw [hnil]
    · rw [if_neg (by simpa using ha)]
      exact ih hnd.2 ((List.mem_cons.mp hi).resolve_left (fun he => ha he.symm))

/-- C10: when several parsed hops share a number, gap filling keeps exactly
one hop for that number — the LAST one in input order (the dict comprehension
overwrites earlier entries). -/
theorem C10_fill_keeps_last_duplicate (hops : List HopData) (i : Int)
    (h : HopData) (h1 : 1 ≤ i)
    (hlast : (hops.filter (fun h' => h'.hop_number = i)).getLast? = some h) :
    (fill_missing_hops hops).filter (fun h' => h'.hop_number = i) = [h] := by
  have hmapi : hopMap hops i = some h := by
    rw [hopMap_eq_filter_getLast]
    exact hlast
  obtain ⟨hmem, hnum⟩ := hopMap_mem_and_number hmapi
  have hne : hops ≠ [] := by
    intro he
    subst he
    cases hmem
  have hle : i ≤ maxHopNumber hops := hnum ▸ le_maxHopNumber hmem
  have hi : i ∈ intRange1 (maxHopNumber hops) := intRange1_mem h1 hle
  unfold fill_missing_hops
  rw [if_neg hne, List.filter_map]
  have hcong : (intRange1 (maxHopNumber hops)).filter
      ((fun h' => decide (h'.hop_number = i)) ∘ fun j =>
        (match hopMap hops j with
         | some h' => h'
         | none => ⟨j, "*", some "No response", none, "timeout"⟩ : HopData)) =
      (intRange1 (maxHopNumber hops)).filter (fun j => j = i) := by
    refine List.filter_congr ?_
    intro j _
    simp only [Function.comp_apply]
    cases hmp : hopMap hops j with
    | some h' =>
      simp only [hmp]
      rw [(hopMap_mem_and_number hmp).2]
    | none => simp only [hmp]
  rw [hcong, nodup_filter_eq (intRange1_nodup _) hi]
  simp only [List.map_cons, List.map_nil, hmapi]

/-- Witness for `C10_fill_keeps_last_duplicate`: two parsed hops numbered 2
with different IPs; the filled sequence keeps the later one. -/
theorem C10_fill_keeps_last_duplicate_witness :
    (([⟨2, "10.0.0.1", none, none, "unknown"⟩,
       ⟨1, "*", none, none, "timeout"⟩,
       ⟨2, "10.0.0.2", none, none, "unknown"⟩] : List HopData).filter
        (fun h' => h'.hop_number = 2)).getLast? =
      some ⟨2, "10.0.0.2", none, none, "unknown"⟩ ∧
    (fill_missing_hops [⟨2, "10.0.0.1", none, none, "unknown"⟩,
       ⟨1, "*", none, none, "timeout"⟩,
       ⟨2, "10.0.0.2", none, none, "unknown"⟩]).filter
        (fun h' => h'.hop_number = 2) = [⟨2, "10.0.0.2", none, none, "unknown"⟩] :=
  ⟨by decide,
    C10_fill_keeps_last_duplicate _ 2 _ (by decide) (by decide)⟩

/-! ### Claim C9 -/

/-- Any hop `_parse_hop_line` returns went through a successful `HopData`
construction, so it satisfies the `__post_init__` checks. -/
lemma parse_hop_line_inv {line : List Char} {h : HopData}
    (hp : parse_hop_line line = some h) :
    1 ≤ h.hop_number ∧ h.ip_address ≠ "" := by
  unfold parse_hop_line at hp
  cases hm : hopLineMatch line with
  | none =>
    rw [hm] at hp
    cases hp
  | some ng =>
    obtain ⟨n, g2⟩ := ng
    rw [hm] at hp
    dsimp only at hp
    split at hp
    · exact hopDataMk_ok_inv hp
    · split at hp
      · split at hp
        · exact hopDataMk_ok_inv hp
        · exact hopDataMk_ok_inv hp
      · split at hp
        · exact hopDataMk_ok_inv hp
        · exact hopDataMk_ok_inv hp

/-- Hops collected from the traceroute section satisfy the checks. -/
lemma sectionHops_inv {txt : List Char} {h : HopData} (hm : h ∈ sectionHops txt) :
    1 ≤ h.hop_number ∧ h.ip_address ≠ "" := by
  unfold sectionHops at hm
  rcases List.mem_filterMap.mp hm with ⟨l, _, hsome⟩
  dsimp only at hsome
  split at hsome
  · cases hsome
  · exact parse_hop_line_inv hsome

/-- Gap filling preserves the checks (the synthesized hops have a number in
`1..max` and the nonempty IP `"*"`). -/
lemma fill_missing_hops_inv {hops : List HopData}
    (hinv : ∀ h ∈ hops, 1 ≤ h.hop_number ∧ h.ip_address ≠ "") {h : HopData}
    (hm : h ∈ fill_missing_hops hops) :
    1 ≤ h.hop_number ∧ h.ip_address ≠ "" := by
  unfold fill_missing_hops at hm
  by_cases hne : hops = []
  · rw [if_pos hne] at hm
    subst hne
    cases hm
  · rw [if_neg hne] at hm
    rcases List.mem_map.mp hm with ⟨i, hi, rfl⟩
    cases hmp : hopMap hops i with
    | some h' =>
      simp only [hmp]
      exact hinv h' (hopMap_mem_and_number hmp).1
    | none =>
      simp only [hmp]
      exact ⟨(mem_intRange1 hi).1, by decide⟩

/-- Hops collected by the fallback format satisfy the checks. -/
lemma altFormatLoop_inv (ls : List (List Char)) :
    ∀ (b : Bool) (acc : List HopData),
      (∀ h ∈ acc, 1 ≤ h.hop_number ∧ h.ip_address ≠ "") →
      ∀ h ∈ altFormatLoop ls b acc, 1 ≤ h.hop_number ∧ h.ip_address ≠ "" := by
  induction ls with
  | nil =>
    intro b acc hacc h hm
    exact hacc h hm
  | cons l t ih =>
    intro b acc hacc h hm
    unfold altFormatLoop at hm
    dsimp only at hm
    split at hm
    · exact ih true acc hacc h hm
    · split at hm
      · split at hm
        · exact ih b acc hacc h hm
        · exact hacc h hm
      · split at hm
        · split at hm
          · rename_i hop hhop
            refine ih b _ ?_ h hm
            intro h' hm'
            rcases List.mem_append.mp hm' with hl | hr
            · exact hacc h' hl
            · rw [List.mem_singleton.mp hr]
              exact parse_hop_line_inv hhop
          · exact ih b acc hacc h hm
        · exact ih b acc hacc h hm

/-- Every hop list the parse body can deliver satisfies the checks. -/
lemma parse_nmap_output_body_inv {o : List Char} {hops : List HopData}
    (hb : parse_nmap_output_body o = .ok hops) :
    ∀ h ∈ hops, 1 ≤ h.hop_number ∧ h.ip_address ≠ "" := by
  unfold parse_nmap_output_body at hb
  cases hs : tracerouteSearch o with
  | none =>
    rw [hs] at hb
    have he : parse_alternative_format o = hops := Except.ok.inj hb
    intro h hm
    rw [← he] at hm
    exact altFormatLoop_inv _ false [] (by intro h' hm'; cases hm') h hm
  | some txt =>
    rw [hs] at hb
    have hb' : parse_traceroute_hopsE txt = .ok hops := hb
    unfold parse_traceroute_hopsE at hb'
    by_cases hne : sectionHops txt = []
    · rw [if_neg (by simpa using hne)] at hb'
      have he : sectionHops txt = hops := Except.ok.inj hb'
      intro h hm
      rw [← he, hne] at hm
      cases hm
    · rw [if_pos hne, fill_missing_hopsE_eq] at hb'
      have he : fill_missing_hops (sectionHops txt) = hops := Except.ok.inj hb'
      intro h hm
      rw [← he] at hm
      exact fill_missing_hops_inv (fun h' hm' => sectionHops_inv hm') hm

/-- Every hop of a parsed `ScanResult` satisfies the checks. -/
lemma parse_nmap_output_hops_inv (output target : String) (port : Int)
    (protocol : String) {h : HopData}
    (hm : h ∈ (parse_nmap_output output target port protocol).hops) :
    1 ≤ h.hop_number ∧ h.ip_address ≠ "" := by
  unfold parse_nmap_output parse_nmap_outputE at hm
  cases hb : parse_nmap_output_body output.data with
  | ok hops =>
    rw [hb] at hm
    dsimp only at hm
    rw [hops_foldl_add_hop] at hm
    have : h ∈ hops := by simpa [mkScanResult] using hm
    exact parse_nmap_output_body_inv hb h this
  | error e =>
    rw [hb] at hm
    dsimp only at hm
    simp [mkScanResult] at hm

/-- C9: a `HopData` construction succeeds iff `hop_number ≥ 1` and the IP is
nonempty (it raises `ValueError` otherwise), and consequently every hop the
parser produces satisfies `hop_number ≥ 1` and a nonempty IP address. -/
theorem C9_hop_validation :
    (∀ (n : Int) (ip : String) (ho : Option String) (r : Option ℚ)
        (st : String),
      (hopDataMk n ip ho r st).isOk = true ↔ (1 ≤ n ∧ ip ≠ "")) ∧
    (∀ (output target : String) (port : Int) (protocol : String),
      ∀ h ∈ (parse_nmap_output output target port protocol).hops,
        1 ≤ h.hop_number ∧ h.ip_address ≠ "") := by
  constructor
  · intro n ip ho r st
    unfold hopDataMk
    by_cases h1 : n < 1
    · rw [if_pos h1]
      simp [Except.isOk, Except.toBool]
      omega
    · rw [if_neg h1]
      by_cases h2 : ip = ""
      · rw [if_pos h2]
        simp [Except.isOk, Except.toBool, h2]
      · rw [if_neg h2]
        simp [Except.isOk, Except.toBool, h2]
        omega
  · intro output target port protocol h hm
    exact parse_nmap_output_hops_inv output target port protocol hm

/-- Witness for `C9_hop_validation`: the construction check at `(1, "*")`,
and the invariant on the hop parsed from a concrete fallback output. -/
theorem C9_hop_validation_witness :
    ((hopDataMk 1 "*" none none "timeout").isOk = true ↔
      (1 ≤ (1 : Int) ∧ ("*" : String) ≠ "")) ∧
    ((⟨1, "*", none, none, "timeout"⟩ : HopData) ∈
        (parse_nmap_output "HOP RTT\n1   *" "198.51.100.7" 80 "tcp").hops ∧
      1 ≤ (⟨1, "*", none, none, "timeout"⟩ : HopData).hop_number ∧
      (⟨1, "*", none, none, "timeout"⟩ : HopData).ip_address ≠ "") :=
  ⟨C9_hop_validation.1 1 "*" none none "timeout",
    by decide,
    C9_hop_validation.2 "HOP RTT\n1   *" "198.51.100.7" 80 "tcp" _ (by decide)⟩

/-! ### Claim C3 -/

/-- C3: parsing never raises.  (1) For every input the `try` body delivers a
hop list without an escaping exception (so `parse_nmap_output` always returns
a `ScanResult`); (2) a line that does not match the `<hop_number> <rest>`
shape is skipped (`None`), not an error; (3) a line whose hop number violates
the `HopData` check (e.g. hop number `0`) is also skipped: the `ValueError`
is caught inside `_parse_hop_line`. -/
theorem C3_parse_never_raises :
    (∀ (output : String),
      ∃ hops : List HopData, parse_nmap_output_body output.data = .ok hops) ∧
    (∀ line : List Char, hopLineMatch line = none → parse_hop_line line = none) ∧
    (∀ (line g2 : List Char), hopLineMatch line = some (0, g2) →
      parse_hop_line line = none) := by
  refine ⟨?_, ?_, ?_⟩
  · intro output
    unfold parse_nmap_output_body
    cases hs : tracerouteSearch output.data with
    | none => exact ⟨_, rfl⟩
    | some txt =>
      by_cases hne : sectionHops txt = []
      · refine ⟨sectionHops txt, ?_⟩
        show parse_traceroute_hopsE txt = _
        unfold parse_traceroute_hopsE
        dsimp only
        rw [if_neg (fun hc => hc hne)]
        rfl
      · refine ⟨fill_missing_hops (sectionHops txt), ?_⟩
        show parse_traceroute_hopsE txt = _
        unfold parse_traceroute_hopsE
        dsimp only
        rw [if_pos hne, fill_missing_hopsE_eq]
  · intro line hm
    unfold parse_hop_line
    rw [hm]
  · intro line g2 hm
    unfold parse_hop_line
    rw [hm]
    dsimp only
    split
    · rfl
    · split
      · split
        · rfl
        · rfl
      · split
        · rfl
        · rfl

/-- Witness for `C3_parse_never_raises`: the empty output parses; the line
`"garbage"` is skipped; the line `"0   *"` (hop number 0) is skipped. -/
theorem C3_parse_never_raises_witness :
    (∃ hops : List HopData, parse_nmap_output_body ("" : String).data = .ok hops) ∧
    (hopLineMatch ("garbage" : String).data = none ∧
      parse_hop_line ("garbage" : String).data = none) ∧
    (hopLineMatch ("0   *" : String).data = some (0, ['*']) ∧
      parse_hop_line ("0   *" : String).data = none) :=
  ⟨C3_parse_never_raises.1 "",
   ⟨by decide, C3_parse_never_raises.2.1 ("garbage" : String).data (by decide)⟩,
   ⟨by decide,
    C3_parse_never_raises.2.2 ("0   *" : String).data ['*'] (by decide)⟩⟩

/-! ### Claim C5 -/

/-- The fixture scan counts as successful (its last hop's status is
`success`). -/
lemma successScanSample_target_reached (x : ℚ) :
    (successScanSample x).target_reached = true := rfl

/-- The fixture scan's `get_statistics` average RTT is its sample. -/
lemma successScanSample_avgRtt (x : ℚ) : (successScanSample x).avgRtt = some x := by
  unfold ScanResult.avgRtt successScanSample mkScanResult
  simp [List.filterMap_cons]

/-- One `_update_stats` step on a successful scan with sample `x`. -/
lemma update_stats_success_step (stats : MonitorStats) (x : ℚ) :
    update_stats stats (successScanSample x) =
      { stats with
        total_scans := stats.total_scans + 1,
        successful_scans := stats.successful_scans + 1,
        min_response_time :=
          some (match stats.min_response_time with
                | none => x
                | some m => min m x),
        max_response_time := max stats.max_response_time x,
        avg_response_time :=
          ((stats.avg_response_time * (((stats.successful_scans + 1 : Int) : ℚ) - 1)) + x) /
            ((stats.successful_scans + 1 : Int) : ℚ) } := by
  unfold update_stats
  rw [successScanSample_target_reached, successScanSample_avgRtt]
  simp

/-- Folding `_update_stats` over successful samples: the running mean times
the count equals the running sum, so the incremental update never drifts
from a full recompute. -/
lemma monitor_fold_invariant (xs : List ℚ) :
    ∀ stats : MonitorStats, 0 ≤ stats.successful_scans →
      ((xs.foldl (fun s x => update_stats s (successScanSample x))
          stats).successful_scans = stats.successful_scans + xs.length) ∧
      ((xs.foldl (fun s x => update_stats s (successScanSample x))
            stats).avg_response_time *
          ((stats.successful_scans : ℚ) + (xs.length : ℚ)) =
        stats.avg_response_time * (stats.successful_scans : ℚ) + xs.sum) := by
  induction xs with
  | nil =>
    intro stats h0
    simp
  | cons x t ih =>
    intro stats h0
    have hS_succ : (update_stats stats (successScanSample x)).successful_scans =
        stats.successful_scans + 1 := by
      rw [update_stats_success_step]
    have hS_avg : (update_stats stats (successScanSample x)).avg_response_time =
        ((stats.avg_response_time * (((stats.successful_scans + 1 : Int) : ℚ) - 1)) + x) /
          ((stats.successful_scans + 1 : Int) : ℚ) := by
      rw [update_stats_success_step]
    obtain ⟨ihc, iha⟩ := ih (update_stats stats (successScanSample x)) (by omega)
    rw [hS_succ] at ihc
    rw [hS_succ, hS_avg] at iha
    have hnz : ((stats.successful_scans + 1 : Int) : ℚ) ≠ 0 := by
      have h1 : (0 : Int) < stats.successful_scans + 1 := by omega
      exact_mod_cast h1.ne'
    have hstep : ((stats.avg_response_time *
          (((stats.successful_scans + 1 : Int) : ℚ) - 1)) + x) /
          ((stats.successful_scans + 1 : Int) : ℚ) *
          ((stats.successful_scans + 1 : Int) : ℚ) =
        stats.avg_response_time * (stats.successful_scans : ℚ) + x := by
      rw [div_mul_cancel₀ _ hnz]
      push_cast
      ring
    constructor
    · rw [List.foldl_cons, ihc]
      simp only [List.length_cons]
      omega
    · rw [List.foldl_cons]
      simp only [List.length_cons, List.sum_cons]
      push_cast at iha hstep ⊢
      linear_combination iha + hstep

/-- The folded statistics carry the exact mean of the samples. -/
lemma monitorFoldStats_mean (xs : List ℚ) (hne : xs ≠ []) :
    (monitorFoldStats xs).successful_scans = (xs.length : Int) ∧
    (monitorFoldStats xs).avg_response_time = xs.sum / (xs.length : ℚ) := by
  obtain ⟨hc, ha⟩ := monitor_fold_invariant xs initMonitorStats (by decide)
  have hc' : (monitorFoldStats xs).successful_scans = (xs.length : Int) := by
    simpa [monitorFoldStats, initMonitorStats] using hc
  refine ⟨hc', ?_⟩
  have hlen : ((xs.length : ℚ)) ≠ 0 := by
    have : xs.length ≠ 0 := fun h => hne (List.length_eq_zero.mp h)
    exact_mod_cast this
  have ha' : (monitorFoldStats xs).avg_response_time * (xs.length : ℚ) = xs.sum := by
    have hz := ha
    simp only [initMonitorStats] at hz
    simpa [monitorFoldStats] using hz
  rw [eq_div_iff hlen]
  exact ha'

/-- C5: the monitor's running mean is updated incrementally (from the
previous mean, the new sample and the successful count only — see
`update_stats`), and the incremental form equals a full recompute: after any
run of successful samples the stored mean is their exact average, and over
`[10, 20, 30]` the intermediate means are `10`, `15`, `20`. -/
theorem C5_incremental_running_mean :
    (∀ xs : List ℚ, xs ≠ [] →
      (monitorFoldStats xs).successful_scans = (xs.length : Int) ∧
      (monitorFoldStats xs).avg_response_time = xs.sum / (xs.length : ℚ)) ∧
    ((monitorFoldStats [10]).avg_response_time = 10 ∧
      (monitorFoldStats [10, 20]).avg_response_time = 15 ∧
      (monitorFoldStats [10, 20, 30]).avg_response_time = 20) := by
  refine ⟨monitorFoldStats_mean, ?_, ?_, ?_⟩
  · have h := (monitorFoldStats_mean [10] (by decide)).2
    norm_num at h
    exact h
  · have h := (monitorFoldStats_mean [10, 20] (by decide)).2
    norm_num at h
    exact h
  · have h := (monitorFoldStats_mean [10, 20, 30] (by decide)).2
    norm_num at h
    exact h

/-- Witness for `C5_incremental_running_mean` at the samples `[10, 20, 30]`. -/
theorem C5_incremental_running_mean_witness :
    (([10, 20, 30] : List ℚ) ≠ []) ∧
    (monitorFoldStats [10, 20, 30]).successful_scans = (3 : Int) ∧
    (monitorFoldStats [10, 20, 30]).avg_response_time = 20 :=
  ⟨by decide,
   by
    have h := (C5_incremental_running_mean.1 [10, 20, 30] (by decide)).1
    simpa using h,
   C5_incremental_running_mean.2.2.2⟩

/-! ### Claim C4 -/

/-- C4: when command building or execution fails (including a timeout),
`scan_target` swallows the exception and returns an empty `ScanResult` —
zero hops, `target_reached` false — carrying the requested target, the
primary port, the effective protocol, and the elapsed-time stamp. -/
theorem C4_scan_target_swallows_exceptions
    (build_command : Except String (List String))
    (execute_scan : List String → Except String (String × String × Int))
    (dflt_protocol target : String) (ports : PortsArg)
    (protocol : Option String) (elapsed : ℚ)
    (hfail : build_command.isOk = false ∨
      (∃ c, build_command = .ok c ∧ (execute_scan c).isOk = false)) :
    scan_target build_command execute_scan dflt_protocol target ports protocol
        elapsed =
      { mkScanResult target (portsOf ports).2
          (effectiveProtocol protocol dflt_protocol) [] with
        scan_duration := some elapsed } ∧
    (scan_target build_command execute_scan dflt_protocol target ports protocol
        elapsed).hops = [] ∧
    (scan_target build_command execute_scan dflt_protocol target ports protocol
        elapsed).target_reached = false ∧
    (scan_target build_command execute_scan dflt_protocol target ports protocol
        elapsed).scan_duration = some elapsed := by
  have hmain : scan_target build_command execute_scan dflt_protocol target ports
      protocol elapsed =
      { mkScanResult target (portsOf ports).2
          (effectiveProtocol protocol dflt_protocol) [] with
        scan_duration := some elapsed } := by
    rcases hfail with hb | ⟨c, hc, he⟩
    · cases hbv : build_command with
      | ok c =>
        rw [hbv] at hb
        exact Bool.noConfusion hb
      | error e =>
        unfold scan_target
        rfl
    · subst hc
      cases hev : execute_scan c with
      | ok r =>
        rw [hev] at he
        exact Bool.noConfusion he
      | error e =>
        unfold scan_target
        dsimp only
        rw [hev]
  refine ⟨hmain, ?_, ?_, ?_⟩ <;> rw [hmain] <;> rfl

/-- Witness for `C4_scan_target_swallows_exceptions`: a built command whose
execution times out. -/
theorem C4_scan_target_swallows_exceptions_witness :
    (((fun _ : List String =>
        (.error "execution timed out" :
          Except String (String × String × Int))) ["nmap"]).isOk = false) ∧
    (scan_target (.ok ["nmap"])
        (fun _ => .error "execution timed out") "tcp" "198.51.100.7"
        (.single 443) none (5/2)).hops = [] ∧
    (scan_target (.ok ["nmap"])
        (fun _ => .error "execution timed out") "tcp" "198.51.100.7"
        (.single 443) none (5/2)).target_reached = false ∧
    (scan_target (.ok ["nmap"])
        (fun _ => .error "execution timed out") "tcp" "198.51.100.7"
        (.single 443) none (5/2)).scan_duration = some (5/2) := by
  have h := C4_scan_target_swallows_exceptions (.ok ["nmap"])
    (fun _ => .error "execution timed out") "tcp" "198.51.100.7"
    (.single 443) none (5/2) (.inr ⟨["nmap"], rfl, rfl⟩)
  exact ⟨rfl, h.2.1, h.2.2.1, h.2.2.2⟩

/-! ### Claim C6 -/

/-- C6: the anti-overlap guard of `_monitor_loop`.  While the loop is live,
a tick that finds `scanning_in_progress` set starts no scan, changes no
state, and waits one full interval; conversely a scan is only ever started
from a tick that found the flag clear, and the iteration that started it
finishes with the flag clear again — so one loop never has two scans in
flight. -/
theorem C6_no_overlapping_scans (st : MonitorState) (inp : IterInput) :
    (st.is_running = true → st.stopping = false →
      st.scanning_in_progress = true →
      (monitor_loop_iter st inp).2 = [.warnOverlapSkip, .sleepFor st.interval] ∧
      (monitor_loop_iter st inp).1 = st) ∧
    (MAction.startScan ∈ (monitor_loop_iter st inp).2 →
      st.scanning_in_progress = false) ∧
    (MAction.startScan ∈ (monitor_loop_iter st inp).2 →
      (monitor_loop_iter st inp).1.scanning_in_progress = false) := by
  by_cases hlive : st.is_running = true ∧ ¬st.stopping = true
  · by_cases hflag : st.scanning_in_progress = true
    · have hiter : monitor_loop_iter st inp =
          (st, [.warnOverlapSkip, .sleepFor st.interval]) := by
        unfold monitor_loop_iter
        rw [if_neg (by simpa using hlive), if_pos hflag]
      refine ⟨fun _ _ _ => ⟨by rw [hiter], by rw [hiter]⟩, ?_, ?_⟩
      · intro hmem
        rw [hiter] at hmem
        simp at hmem
      · intro hmem
        rw [hiter] at hmem
        simp at hmem
    · have hflag' : st.scanning_in_progress = false := by
        simpa using hflag
      refine ⟨fun _ _ hc => absurd hc hflag, fun _ => hflag', ?_⟩
      intro hmem
      unfold monitor_loop_iter
      rw [if_neg (by simpa using hlive), if_neg hflag]
      dsimp only
      split
      · rfl
      · rfl
  · have hiter : monitor_loop_iter st inp = (st, [.exitLoop]) := by
      unfold monitor_loop_iter
      rw [if_pos (by simpa using hlive)]
    refine ⟨?_, ?_, ?_⟩
    · intro hr hs _
      exact absurd ⟨hr, by simp [hs]⟩ hlive
    · intro hmem
      rw [hiter] at hmem
      simp at hmem
    · intro hmem
      rw [hiter] at hmem
      simp at hmem

/-- Witness for `C6_no_overlapping_scans`: a live state with a scan in
flight skips the tick (no `startScan`) and sleeps the full interval. -/
theorem C6_no_overlapping_scans_witness :
    (monitor_loop_iter
        { is_running := true, stopping := false, scanning_in_progress := true,
          stats := initMonitorStats, history := [], max_history := 100,
          current_result := none, interval := 5 }
        { result := mkScanResult "198.51.100.7" 80 "tcp" [], scan_duration := 7,
          callback_set := false, callback_raises := false }).2 =
      [.warnOverlapSkip, .sleepFor 5] ∧
    (monitor_loop_iter
        { is_running := true, stopping := false, scanning_in_progress := true,
          stats := initMonitorStats, history := [], max_history := 100,
          current_result := none, interval := 5 }
        { result := mkScanResult "198.51.100.7" 80 "tcp" [], scan_duration := 7,
          callback_set := false, callback_raises := false }).1 =
      { is_running := true, stopping := false, scanning_in_progress := true,
        stats := initMonitorStats, history := [], max_history := 100,
        current_result := none, interval := 5 } :=
  (C6_no_overlapping_scans
    { is_running := true, stopping := false, scanning_in_progress := true,
      stats := initMonitorStats, history := [], max_history := 100,
      current_result := none, interval := 5 }
    { result := mkScanResult "198.51.100.7" 80 "tcp" [], scan_duration := 7,
      callback_set := false, callback_raises := false }).1 rfl rfl rfl

/-! ### Claim C7 -/

/-- C7: `stop_monitoring` is idempotent.  A first call (flag clear) performs
the shutdown sequence: it sets `stopping`, clears `is_running`, and joins the
monitor thread with a 5 second bound.  Any call made while already
stopping/stopped is a no-op that leaves the state unchanged and performs no
action; in particular a second call right after the first is such a no-op. -/
theorem C7_stop_idempotent (st : MonitorState) :
    (st.stopping = false →
      stop_monitoring st =
        ({ st with stopping := true, is_running := false },
          [.joinThread 5])) ∧
    (st.stopping = true → stop_monitoring st = (st, [])) ∧
    (stop_monitoring (stop_monitoring st).1 = ((stop_monitoring st).1, [])) := by
  refine ⟨?_, ?_, ?_⟩
  · intro hs
    unfold stop_monitoring
    rw [if_pos (by simp [hs])]
  · intro hs
    unfold stop_monitoring
    rw [if_neg (by simp [hs])]
  · by_cases hs : st.stopping = true
    · have h1 : stop_monitoring st = (st, []) := by
        unfold stop_monitoring
        rw [if_neg (by simp [hs])]
      rw [h1]
      exact h1
    · have h1 : stop_monitoring st =
          ({ st with stopping := true, is_running := false },
            [.joinThread 5]) := by
        unfold stop_monitoring
        rw [if_pos (by simpa using hs)]
      rw [h1]
      unfold stop_monitoring
      rw [if_neg (by simp)]

/-- Witness for `C7_stop_idempotent`: from a running state, the first stop
shuts down, the second is a no-op. -/
theorem C7_stop_idempotent_witness :
    stop_monitoring
        { is_running := true, stopping := false, scanning_in_progress := false,
          stats := initMonitorStats, history := [], max_history := 100,
          current_result := none, interval := 5 } =
      ({ is_running := false, stopping := true, scanning_in_progress := false,
         stats := initMonitorStats, history := [], max_history := 100,
         current_result := none, interval := 5 }, [.joinThread 5]) ∧
    stop_monitoring
        { is_running := false, stopping := true, scanning_in_progress := false,
          stats := initMonitorStats, history := [], max_history := 100,
          current_result := none, interval := 5 } =
      ({ is_running := false, stopping := true, scanning_in_progress := false,
         stats := initMonitorStats, history := [], max_history := 100,
         current_result := none, interval := 5 }, []) :=
  ⟨(C7_stop_idempotent
      { is_running := true, stopping := false, scanning_in_progress := false,
        stats := initMonitorStats, history := [], max_history := 100,
        current_result := none, interval := 5 }).1 rfl,
   (C7_stop_idempotent
      { is_running := false, stopping := true, scanning_in_progress := false,
        stats := initMonitorStats, history := [], max_history := 100,
        current_result := none, interval := 5 }).2.1 rfl⟩

/-! ### Claim C8 -/

/-- C8: port-list parsing.  `"22,80-82,443"` yields exactly
`[22, 80, 81, 82, 443]`; `"0"` and `"65536"` are rejected (`is_valid_port`
requires `1..65535`); and any range piece whose parsed start exceeds its
parsed end — both being valid ports — is rejected with an error. -/
theorem C8_port_list_parsing :
    validate_port_list "22,80-82,443" = .ok [22, 80, 81, 82, 443] ∧
    (validate_port_list "0").isOk = false ∧
    (validate_port_list "65536").isOk = false ∧
    is_valid_port 0 = false ∧
    is_valid_port 65536 = false ∧
    (∀ (part : List Char) (acc : List Int) (a b : Int),
      (pyStrip part).contains '-' = true →
      pyInt (pyStrip (pySplitOnce '-' (pyStrip part)).1) = some a →
      (pySplitOnce '-' (pyStrip part)).2.bind (fun s => pyInt (pyStrip s)) =
        some b →
      is_valid_port a = true → is_valid_port b = true → b < a →
      (processPortPart acc part).isOk = false) := by
  refine ⟨by rfl, by decide, by decide, by decide, by decide, ?_⟩
  intro part acc a b hdash ha hb hva hvb hba
  unfold processPortPart
  rw [if_pos hdash]
  cases hsplit : pySplitOnce '-' (pyStrip part) with
  | mk s1 s2 =>
    cases s2 with
    | none =>
      rw [hsplit] at hb
      cases hb
    | some s2v =>
      rw [hsplit] at ha hb
      have ha' : pyInt (pyStrip s1) = some a := ha
      have hb' : pyInt (pyStrip s2v) = some b := hb
      simp only [ha', hb']
      rw [if_neg (by simp [hva, hvb]), if_pos (by omega)]
      rfl

/-- Witness for `C8_port_list_parsing`: the descending range `"80-22"` is
rejected. -/
theorem C8_port_list_parsing_witness :
    (pyStrip ("80-22" : String).data).contains '-' = true ∧
    pyInt (pyStrip
      (pySplitOnce '-' (pyStrip ("80-22" : String).data)).1) = some 80 ∧
    (processPortPart [] ("80-22" : String).data).isOk = false :=
  ⟨by decide, by decide,
   C8_port_list_parsing.2.2.2.2.2 ("80-22" : String).data [] 80 22 (by decide)
     (by decide) (by decide) (by decide) (by decide) (by decide)⟩
